import Mathlib

/-!
Verification of the DQN agent (`src/dqn/agent.py`) against its
natural-language specification.

The agent's numeric state (epsilon, parameters, losses, rewards) is embedded
over the rationals.  External collaborators that are out of scope of the
repository's core file — the `QNetwork` forward pass, the memory's sampling,
the optimizer's gradient step, and the state-preprocessing hook — are taken as
explicit function parameters, so every theorem quantifies over them.
-/

namespace DQN

/-- A state observation: a numeric vector. -/
abbrev Obs := List ℚ

/-- The agent's scalar configuration, from `Agent.__init__`. -/
structure AgentConfig where
  state_size : ℕ
  action_size : ℕ
  batch_size : ℕ
  gamma : ℚ
  tau : ℚ
  small_eps : ℚ
  update_every : ℕ
  prioritized_memory : Bool
  epsilon_enabled : Bool
  epsilon_start : ℚ
  epsilon_end : ℚ
  epsilon_decay : ℚ

/-- One recorded transition, as stored by `Memory.add`. -/
structure Transition where
  state : Obs
  action : ℕ
  reward : ℚ
  next_state : Obs
  done : Bool

/-- The agent's mutable state: epsilon, the cyclic step counter `t_step`,
the loss history, the memory contents, and the two parameter vectors
(local and target network parameters flattened to a list). -/
structure AgentState where
  epsilon : ℚ
  t_step : ℕ
  losses : List ℚ
  memory : List Transition
  qnet_local : List ℚ
  qnet_target : List ℚ

/-- Agent construction (`__init__`): epsilon is `epsilon_start` when
exploration is enabled and exactly `0` otherwise; `t_step` starts at 0,
losses and memory start empty; both networks are built from the same seed,
hence share their initial parameters `initParams`. -/
def initAgent (cfg : AgentConfig) (initParams : List ℚ) : AgentState :=
  { epsilon := if cfg.epsilon_enabled then cfg.epsilon_start else 0
    t_step := 0
    losses := []
    memory := []
    qnet_local := initParams
    qnet_target := initParams }

/-- First-occurrence arg-max helper mirroring `np.argmax` (lowest index wins
on ties; a strictly greater value is required to move the best index). -/
def argmaxFrom : ℕ → ℕ → ℚ → List ℚ → ℕ
  | _, bi, _, [] => bi
  | i, bi, bv, x :: xs =>
      if bv < x then argmaxFrom (i + 1) i x xs else argmaxFrom (i + 1) bi bv xs

/-- Index of the first maximal entry, as `np.argmax` computes it. -/
def argmax : List ℚ → ℕ
  | [] => 0
  | x :: xs => argmaxFrom 1 0 x xs

/-- Row-wise maximum, mirroring `tensor.max(1)[0]` on one row. -/
def listMax : List ℚ → ℚ
  | [] => 0
  | x :: xs => xs.foldl max x

/-- Epsilon decay (`decay_eps`): `epsilon <- max(epsilon_end, epsilon_decay * epsilon)`. -/
def decay_eps (cfg : AgentConfig) (eps : ℚ) : ℚ :=
  max cfg.epsilon_end (cfg.epsilon_decay * eps)

/-- Action selection (`act`).  `Q` is the opaque network forward pass
(parameters and input to per-action values), `ps` the external state
preprocessing hook, `r` the draw of `random.random()`, and `randomAction`
the draw of `random.randrange(action_size)`.  The epsilon-greedy branch
compares `r` with the epsilon held at entry; afterwards, when exploration is
enabled, epsilon is decayed exactly once regardless of the branch taken. -/
def act (cfg : AgentConfig) (Q : List ℚ → Obs → List ℚ) (ps : Obs → Obs)
    (r : ℚ) (randomAction : ℕ) (s : AgentState) (state : Obs) : ℕ × AgentState :=
  let action_values := Q s.qnet_local (ps state)
  let action := if cfg.epsilon_enabled = true ∧ r < s.epsilon then randomAction
    else argmax action_values
  let s2 := if cfg.epsilon_enabled = true then
    { s with epsilon := decay_eps cfg s.epsilon } else s
  (action, s2)

/-- Per-element squared errors, mirroring `F.mse_loss(Q_expected, Q_targets, reduce=False)`
on column vectors after `squeeze(1)`. -/
def squaredErrors (Q_expected Q_targets : List ℚ) : List ℚ :=
  List.zipWith (fun a b => (a - b) ^ 2) Q_expected Q_targets

/-- Mean of a list of rationals (`tensor.mean()`). -/
def mean (l : List ℚ) : ℚ := l.sum / (l.length : ℚ)

/-- Uniform-memory loss: `F.mse_loss(Q_expected, Q_targets)`. -/
def mse_loss (Q_expected Q_targets : List ℚ) : ℚ :=
  mean (squaredErrors Q_expected Q_targets)

/-- Result of `mse_loss_prioritized`: the scalar loss returned to `learn`,
and the per-slot priority values passed to `Memory.update_priority`. -/
structure PrioritizedLossResult where
  loss : ℚ
  new_priorities : List ℚ

/-- Prioritized loss (`mse_loss_prioritized`): the per-sample squared errors
are multiplied elementwise by the sampling weights; the weighted values plus
`small_eps` are written back as priorities, and their mean is the loss. -/
def mse_loss_prioritized (small_eps : ℚ) (Q_expected Q_targets sampling_weights : List ℚ) :
    PrioritizedLossResult :=
  let losses := List.zipWith (fun x w => x * w) (squaredErrors Q_expected Q_targets)
    sampling_weights
  { loss := mean losses
    new_priorities := losses.map (fun x => x + small_eps) }

/-- Indicator of the `done` flag as the numeric tensor entry it becomes. -/
def doneFlag : Bool → ℚ
  | true => 1
  | false => 0

/-- The data of one sample that the target computation in `learn` consumes:
its reward, its done flag, and the target network's value vector at its
next state (`self.qnet_target(next_states)` restricted to that row,
detached, so a plain vector of numbers). -/
structure Sample where
  reward : ℚ
  done : Bool
  q_next_target : List ℚ

/-- Target for one sample, from `learn`:
`rewards + (self.gamma * Q_targets_next * (1 - dones))` where
`Q_targets_next` is the row maximum of the detached target-network output. -/
def q_target (gamma : ℚ) (s : Sample) : ℚ :=
  s.reward + gamma * listMax s.q_next_target * (1 - doneFlag s.done)

/-- Targets for a whole batch. -/
def q_targets (gamma : ℚ) (batch : List Sample) : List ℚ :=
  batch.map (q_target gamma)

/-- Spec-side target formula, written from the specification's words:
`target = reward + gamma * max_a target_estimator(next_state)[a] * (1 - done)`.
Kept separate from `q_target` (translated from the code) so the two can be
compared. -/
def target_spec (gamma reward : ℚ) (done : Bool) (max_next : ℚ) : ℚ :=
  reward + gamma * max_next * (1 - (if done then 1 else 0))

/-- Polyak soft update (`soft_update`): for each parameter pair,
`target_param <- tau * local_param + (1 - tau) * target_param`. -/
def soft_update (tau : ℚ) (target_params local_params : List ℚ) : List ℚ :=
  List.zipWith (fun t l => tau * l + (1 - tau) * t) target_params local_params

/-- State effect of `learn`: the scalar loss (computed from the sampled
batch by the branches modelled above) is appended to the loss history, the
optimizer performs one gradient step on the local parameters (`gradStep`, an
opaque external operation), and the target parameters are soft-updated
toward the new local parameters.  Epsilon, `t_step` and the memory contents
are untouched. -/
def learn (cfg : AgentConfig) (gradStep : List ℚ → ℚ → List ℚ)
    (batchLoss : ℚ) (s : AgentState) : AgentState :=
  let localNew := gradStep s.qnet_local batchLoss
  { s with
    losses := s.losses ++ [batchLoss]
    qnet_local := localNew
    qnet_target := soft_update cfg.tau s.qnet_target localNew }

/-- One `step` call: preprocess the transition's states, add it to memory
unconditionally, advance `t_step` modulo `update_every`, and invoke `learn`
exactly when the counter wrapped to zero and the memory now holds strictly
more than `batch_size` transitions.  `lossOf` abstracts the sampling of a
batch and the loss computation on it.  The boolean records whether `learn`
was invoked. -/
def step (cfg : AgentConfig) (ps : Obs → Obs) (gradStep : List ℚ → ℚ → List ℚ)
    (lossOf : AgentState → ℚ) (s : AgentState) (tr : Transition) :
    AgentState × Bool :=
  let tr2 := { tr with state := ps tr.state, next_state := ps tr.next_state }
  let s1 := { s with memory := s.memory ++ [tr2] }
  let t2 := (s1.t_step + 1) % cfg.update_every
  let s2 := { s1 with t_step := t2 }
  if t2 = 0 ∧ cfg.batch_size < s2.memory.length then
    (learn cfg gradStep (lossOf s2) s2, true)
  else
    (s2, false)

/-- Iterate `step` over a list of transitions, collecting the per-call
learn-invocation flags. -/
def runSteps (cfg : AgentConfig) (ps : Obs → Obs) (gradStep : List ℚ → ℚ → List ℚ)
    (lossOf : AgentState → ℚ) : AgentState → List Transition → List Bool
  | _, [] => []
  | s, tr :: trs =>
      (step cfg ps gradStep lossOf s tr).2 ::
        runSteps cfg ps gradStep lossOf (step cfg ps gradStep lossOf s tr).1 trs

/-- Beta schedule body from `get_beta`:
`beta = min(beta_start * (beta_growth ** i), beta_end)`. -/
def beta_schedule (beta_start beta_end beta_growth : ℚ) (i : ℕ) : ℚ :=
  min (beta_start * beta_growth ^ i) beta_end

/-- The `get_beta` method: raises `TypeError` when the agent is not using
prioritized memory, otherwise returns the schedule value.  The method reads
only the configuration flag and mutates nothing, which the embedding
reflects by taking no state and returning none.  In the code the schedule
parameters default to `beta_start = 0.4`, `beta_end = 1`,
`beta_growth = 1.05`. -/
def get_beta (prioritized_memory : Bool) (beta_start beta_end beta_growth : ℚ)
    (i : ℕ) : Except String ℚ :=
  if prioritized_memory = false then
    Except.error "This agent is not using prioritized memory."
  else
    Except.ok (beta_schedule beta_start beta_end beta_growth i)

/-- The serialized content of `save_model`: only the local network's
parameters (`self.qnet_local.state_dict()`). -/
def save_model (s : AgentState) : List ℚ :=
  s.qnet_local

/-- The effect of `load_model`: replace the local network's parameters,
leaving every other component of the agent unchanged. -/
def load_model (params : List ℚ) (s : AgentState) : AgentState :=
  { s with qnet_local := params }

/-- Greedy action choice for a state: the arg-max over the local network's
value vector, as the greedy branch of `act` computes it. -/
def greedy_action (Q : List ℚ → Obs → List ℚ) (s : AgentState) (state : Obs) : ℕ :=
  argmax (Q s.qnet_local state)

/-- The average-loss component of the `logs` string: either an integer
(Python's `int(...)` truncates toward zero) or the infinite placeholder
`float("inf")`. -/
inductive AvgLoss where
  | val (z : ℤ)
  | infinite
deriving DecidableEq

/-- Last `n` elements of a list, mirroring Python's `l[-n:]`. -/
def lastN (n : ℕ) (l : List ℚ) : List ℚ :=
  l.drop (l.length - n)

/-- Truncation of a rational toward zero, mirroring Python's `int(...)`. -/
def ratTrunc (q : ℚ) : ℤ :=
  if 0 ≤ q then ⌊q⌋ else ⌈q⌉

/-- The average-loss value reported by `logs`:
`int(torch.mean(torch.stack(self.losses[-100:])))` when losses were
recorded, `float("inf")` otherwise. -/
def logsAvgLoss (losses : List ℚ) : AvgLoss :=
  if 0 < losses.length then AvgLoss.val (ratTrunc (mean (lastN 100 losses)))
  else AvgLoss.infinite

/-- The two quantities rendered into the `logs` diagnostic string: the
current epsilon and the average-loss value. -/
def logs (s : AgentState) : ℚ × AvgLoss :=
  (s.epsilon, logsAvgLoss s.losses)

/-! ## Helper lemmas -/

theorem getD_zipWith (f : ℚ → ℚ → ℚ) :
    ∀ (as bs : List ℚ) (i : ℕ), i < as.length → i < bs.length →
      (List.zipWith f as bs).getD i 0 = f (as.getD i 0) (bs.getD i 0)
  | [], _, _, h, _ => absurd h (by simp)
  | _ :: _, [], _, _, h => absurd h (by simp)
  | _ :: _, _ :: _, 0, _, _ => rfl
  | _ :: as, _ :: bs, i + 1, h1, h2 =>
      getD_zipWith f as bs i (Nat.lt_of_succ_lt_succ h1) (Nat.lt_of_succ_lt_succ h2)

theorem getD_map (f : ℚ → ℚ) :
    ∀ (l : List ℚ) (i : ℕ), i < l.length →
      (l.map f).getD i 0 = f (l.getD i 0)
  | [], _, h => absurd h (by simp)
  | _ :: _, 0, _ => rfl
  | _ :: l, i + 1, h => getD_map f l i (Nat.lt_of_succ_lt_succ h)

theorem length_zipWith_of_eq (f : ℚ → ℚ → ℚ) (as bs : List ℚ)
    (h : as.length = bs.length) : (List.zipWith f as bs).length = as.length := by
  simp [List.length_zipWith, h]

theorem soft_update_tau_one :
    ∀ (tp lp : List ℚ), tp.length = lp.length → soft_update 1 tp lp = lp
  | [], [], _ => rfl
  | [], _ :: _, h => by simp at h
  | _ :: _, [], h => by simp at h
  | t :: tp, l :: lp, h => by
      have ih := soft_update_tau_one tp lp (by simpa using h)
      simp only [soft_update, List.zipWith_cons_cons] at ih ⊢
      refine List.cons_eq_cons.mpr ⟨by ring, ih⟩

theorem soft_update_tau_zero :
    ∀ (tp lp : List ℚ), tp.length = lp.length → soft_update 0 tp lp = tp
  | [], [], _ => rfl
  | [], _ :: _, h => by simp at h
  | _ :: _, [], h => by simp at h
  | t :: tp, l :: lp, h => by
      have ih := soft_update_tau_zero tp lp (by simpa using h)
      simp only [soft_update, List.zipWith_cons_cons] at ih ⊢
      refine List.cons_eq_cons.mpr ⟨by ring, ih⟩

/-! ## Claim theorems -/

/-- Claim C1: in `learn`, for every sample of the batch the training target
equals `reward + gamma * max_a target_estimator(next_state)[a] * (1 - done)`
(the spec-side formula `target_spec`); the target is a function of the
detached target-network output alone, and for a terminal sample
(`done = true`) it collapses to the reward, regardless of the target
network's value at the next state. -/
theorem learn_target_ok (gamma : ℚ) (batch : List Sample) (s : Sample) :
    q_targets gamma batch =
      batch.map (fun x => target_spec gamma x.reward x.done (listMax x.q_next_target)) ∧
    (s.done = true → q_target gamma s = s.reward) := by
  constructor
  · have h : ∀ x : Sample,
        q_target gamma x = target_spec gamma x.reward x.done (listMax x.q_next_target) := by
      intro x
      cases hx : x.done <;> simp [q_target, target_spec, doneFlag, hx]
    simp only [q_targets]
    exact List.map_congr_left fun x _ => h x
  · intro h
    simp [q_target, doneFlag, h]

/-- Witness for C1: a terminal transition with reward 5 and gamma 0.99
yields target exactly 5 even though the target network values the next
state at 123. -/
theorem learn_target_ok_witness :
    q_target (99 / 100) (Sample.mk 5 true [123, -7]) = 5 :=
  (learn_target_ok (99 / 100) [] (Sample.mk 5 true [123, -7])).2 rfl

/-- Claim C6: the beta schedule is
`beta(i) = min(beta_start * beta_growth ^ i, beta_end)`; it is monotonically
non-decreasing in the episode index (for a nonnegative start and a growth
factor at least 1), never exceeds `beta_end`, and equals `beta_start` at
episode 0 whenever `beta_start ≤ beta_end`; `get_beta` on a prioritized
agent returns exactly this schedule value. -/
theorem get_beta_schedule_ok (bs be bg : ℚ) (i j : ℕ)
    (hbs : 0 ≤ bs) (hbg : 1 ≤ bg) (hij : i ≤ j) (hse : bs ≤ be) :
    beta_schedule bs be bg i ≤ beta_schedule bs be bg j ∧
    beta_schedule bs be bg i ≤ be ∧
    beta_schedule bs be bg 0 = bs ∧
    get_beta true bs be bg i = Except.ok (beta_schedule bs be bg i) := by
  refine ⟨?_, min_le_right _ _, ?_, rfl⟩
  · apply min_le_min_right
    exact mul_le_mul_of_nonneg_left (pow_le_pow_right₀ hbg hij) hbs
  · simp [beta_schedule, min_eq_left hse]

/-- Witness for C6 at the code's default schedule parameters
(`beta_start = 0.4`, `beta_end = 1`, `beta_growth = 1.05`), episodes 0 and 3. -/
theorem get_beta_schedule_ok_witness :
    beta_schedule (2 / 5) 1 (21 / 20) 0 ≤ beta_schedule (2 / 5) 1 (21 / 20) 3 ∧
    beta_schedule (2 / 5) 1 (21 / 20) 0 ≤ 1 ∧
    beta_schedule (2 / 5) 1 (21 / 20) 0 = 2 / 5 ∧
    get_beta true (2 / 5) 1 (21 / 20) 0 =
      Except.ok (beta_schedule (2 / 5) 1 (21 / 20) 0) :=
  get_beta_schedule_ok (2 / 5) 1 (21 / 20) 0 3
    (by norm_num) (by norm_num) (by norm_num) (by norm_num)

/-- Claim C7: calling `get_beta` on an agent not configured with prioritized
memory fails loudly with a `TypeError` (the embedding returns the error
value, no schedule value, and — `get_beta` neither reading nor producing an
agent state — no state change); on a prioritized agent it never errors and
returns the schedule value. -/
theorem get_beta_error_ok (bs be bg : ℚ) (i : ℕ) :
    get_beta false bs be bg i =
      Except.error "This agent is not using prioritized memory." ∧
    get_beta true bs be bg i = Except.ok (beta_schedule bs be bg i) :=
  ⟨rfl, rfl⟩

/-- Claim C8: `save_model` serializes exactly the local network's
parameters; `load_model` replaces only the local parameters, leaving the
target parameters, the memory, epsilon, the step counter and the loss
history unchanged; loading a saved model into any other agent (in
particular a freshly constructed one of identical architecture) reproduces
the saved agent's greedy action choice on every state, hence on any fixed
batch of states. -/
theorem save_load_ok (Q : List ℚ → Obs → List ℚ) (s fresh : AgentState)
    (states : List Obs) :
    save_model s = s.qnet_local ∧
    (load_model (save_model s) fresh).qnet_local = s.qnet_local ∧
    (load_model (save_model s) fresh).qnet_target = fresh.qnet_target ∧
    (load_model (save_model s) fresh).memory = fresh.memory ∧
    (load_model (save_model s) fresh).epsilon = fresh.epsilon ∧
    (load_model (save_model s) fresh).t_step = fresh.t_step ∧
    (load_model (save_model s) fresh).losses = fresh.losses ∧
    states.map (greedy_action Q (load_model (save_model s) fresh)) =
      states.map (greedy_action Q s) :=
  ⟨rfl, rfl, rfl, rfl, rfl, rfl, rfl, rfl⟩

/-- Claim C4: `soft_update` sets each target parameter to
`tau * local + (1 - tau) * target` positionwise; with `tau = 1` the target
parameter vector becomes exactly the local one, with `tau = 0` it is
unchanged; and `learn` finishes by soft-updating the target parameters
toward the just-updated local parameters, so the update runs after every
learning step (in the code, `learn` is `soft_update`'s only call site). -/
theorem soft_update_ok (tau : ℚ) (tp lp : List ℚ) (hlen : tp.length = lp.length)
    (i : ℕ) (hi : i < tp.length)
    (cfg : AgentConfig) (gradStep : List ℚ → ℚ → List ℚ) (loss : ℚ)
    (s : AgentState) :
    (soft_update tau tp lp).getD i 0 =
      tau * lp.getD i 0 + (1 - tau) * tp.getD i 0 ∧
    soft_update 1 tp lp = lp ∧
    soft_update 0 tp lp = tp ∧
    (learn cfg gradStep loss s).qnet_target =
      soft_update cfg.tau s.qnet_target ((learn cfg gradStep loss s).qnet_local) := by
  refine ⟨?_, soft_update_tau_one tp lp hlen, soft_update_tau_zero tp lp hlen, rfl⟩
  simpa [soft_update] using
    getD_zipWith (fun t l => tau * l + (1 - tau) * t) tp lp i hi (hlen ▸ hi)

/-- Witness for C4 at `tau = 1/2`, target parameters `[4, 0]`, local
parameters `[2, 8]`, position 0, and a concrete agent. -/
theorem soft_update_ok_witness :
    (soft_update (1 / 2) [4, 0] [2, 8]).getD 0 0 =
      (1 / 2) * (2 : ℚ) + (1 - 1 / 2) * 4 ∧
    soft_update 1 [4, 0] [2, 8] = [2, 8] ∧
    soft_update 0 [4, 0] [2, 8] = [4, 0] ∧
    (learn ⟨8, 4, 64, 99 / 100, 1 / 1000, 1 / 100000, 4, false, true, 1, 1 / 100, 199 / 200⟩
        (fun p _ => p) 0 ⟨1, 0, [], [], [3, 5], [7, 11]⟩).qnet_target =
      soft_update (1 / 1000) [7, 11]
        ((learn ⟨8, 4, 64, 99 / 100, 1 / 1000, 1 / 100000, 4, false, true, 1, 1 / 100, 199 / 200⟩
          (fun p _ => p) 0 ⟨1, 0, [], [], [3, 5], [7, 11]⟩).qnet_local) :=
  soft_update_ok (1 / 2) [4, 0] [2, 8] rfl 0 (by decide)
    ⟨8, 4, 64, 99 / 100, 1 / 1000, 1 / 100000, 4, false, true, 1, 1 / 100, 199 / 200⟩
    (fun p _ => p) 0 ⟨1, 0, [], [], [3, 5], [7, 11]⟩

/-- Claim C3 counterexample: with `Q_expected = [0]`, `Q_targets = [1]`,
`sampling_weights = [2]` and `small_eps = 1/100000`, the value written back
to `update_priority` is the weighted squared error plus the floor
(`2 + 1/100000`), not the unweighted squared error plus the floor
(`1 + 1/100000`): the claim's description of the written-back priorities is
false on the code. -/
theorem mse_loss_prioritized_counterexample :
    (mse_loss_prioritized (1 / 100000) [0] [1] [2]).new_priorities =
      [2 + 1 / 100000] ∧
    (squaredErrors [0] [1]).map (fun x => x + 1 / 100000) = [1 + 1 / 100000] ∧
    (mse_loss_prioritized (1 / 100000) [0] [1] [2]).new_priorities ≠
      (squaredErrors [0] [1]).map (fun x => x + 1 / 100000) := by
  refine ⟨?_, ?_, ?_⟩ <;> norm_num [mse_loss_prioritized, squaredErrors, mean]

/-- Claim C3 as amended: the prioritized loss is the mean over the batch of
the per-sample squared errors each multiplied by its importance weight, and
the values written back into memory via `update_priority` are those same
WEIGHTED squared errors each offset by `small_eps` (not the unweighted
ones). -/
theorem mse_loss_prioritized_amended (small_eps : ℚ) (qe qt w : List ℚ)
    (hq : qe.length = qt.length) (hw : qe.length = w.length)
    (i : ℕ) (hi : i < qe.length) :
    (mse_loss_prioritized small_eps qe qt w).loss =
      mean (List.zipWith (fun x wt => x * wt) (squaredErrors qe qt) w) ∧
    (mse_loss_prioritized small_eps qe qt w).new_priorities.getD i 0 =
      (qe.getD i 0 - qt.getD i 0) ^ 2 * w.getD i 0 + small_eps := by
  refine ⟨rfl, ?_⟩
  have hsq : i < (squaredErrors qe qt).length := by
    simp [squaredErrors, List.length_zipWith]
    omega
  have hz : i < (List.zipWith (fun x wt => x * wt) (squaredErrors qe qt) w).length := by
    simp [squaredErrors, List.length_zipWith]
    omega
  have h1 := getD_map (fun x => x + small_eps)
    (List.zipWith (fun x wt => x * wt) (squaredErrors qe qt) w) i hz
  have h2 := getD_zipWith (fun x wt => x * wt) (squaredErrors qe qt) w i hsq
    (by omega)
  have h3 := getD_zipWith (fun a b => (a - b) ^ 2) qe qt i hi (by omega)
  calc (mse_loss_prioritized small_eps qe qt w).new_priorities.getD i 0
      = (List.zipWith (fun x wt => x * wt) (squaredErrors qe qt) w).getD i 0
          + small_eps := h1
    _ = (squaredErrors qe qt).getD i 0 * w.getD i 0 + small_eps := by rw [h2]
    _ = (qe.getD i 0 - qt.getD i 0) ^ 2 * w.getD i 0 + small_eps := by
          rw [squaredErrors, h3]

/-- Witness for the amended C3 on the counterexample batch. -/
theorem mse_loss_prioritized_amended_witness :
    (mse_loss_prioritized (1 / 100000) [0] [1] [2]).loss =
      mean (List.zipWith (fun x wt => x * wt) (squaredErrors [0] [1]) [2]) ∧
    (mse_loss_prioritized (1 / 100000) [0] [1] [2]).new_priorities.getD 0 0 =
      ((0 : ℚ) - 1) ^ 2 * 2 + 1 / 100000 := by
  have h := mse_loss_prioritized_amended (1 / 100000) [0] [1] [2] rfl rfl 0
    (by decide)
  exact ⟨h.1, by simpa using h.2⟩

/-- Claim C9 counterexample: with a single recorded loss `5/2`, the mean of
the last 100 losses is `5/2` but `logs` reports the integer 2 (Python's
`int(...)` truncation), so the reported value is not the mean. -/
theorem logs_counterexample :
    mean (lastN 100 [(5 : ℚ) / 2]) = 5 / 2 ∧
    logsAvgLoss [(5 : ℚ) / 2] = AvgLoss.val 2 ∧
    ((2 : ℚ) ≠ 5 / 2) := by
  refine ⟨by norm_num [mean, lastN], ?_, by norm_num⟩
  have h : ratTrunc (mean (lastN 100 [(5 : ℚ) / 2])) = 2 := by
    have hm : mean (lastN 100 [(5 : ℚ) / 2]) = 5 / 2 := by norm_num [mean, lastN]
    rw [hm, ratTrunc, if_pos (by norm_num)]
    apply Int.floor_eq_iff.mpr
    norm_num
  simp [logsAvgLoss, h]

/-- Claim C9 as amended: `logs` reports the agent's current epsilon together
with the integer truncation (toward zero) of the mean of the last 100
recorded loss values — so the reported number is within 1 of the true mean
when that mean is nonnegative — and reports the infinite placeholder when no
losses have been recorded yet. -/
theorem logs_ok (s : AgentState) (hne : s.losses ≠ [])
    (hnn : 0 ≤ mean (lastN 100 s.losses)) :
    (logs s).1 = s.epsilon ∧
    (logs s).2 = AvgLoss.val (ratTrunc (mean (lastN 100 s.losses))) ∧
    ((ratTrunc (mean (lastN 100 s.losses)) : ℚ) ≤ mean (lastN 100 s.losses) ∧
      mean (lastN 100 s.losses) < ratTrunc (mean (lastN 100 s.losses)) + 1) ∧
    (∀ s2 : AgentState, s2.losses = [] → (logs s2).2 = AvgLoss.infinite) := by
  have hlen : 0 < s.losses.length := List.length_pos.mpr hne
  have htr : ratTrunc (mean (lastN 100 s.losses)) = ⌊mean (lastN 100 s.losses)⌋ := by
    rw [ratTrunc, if_pos hnn]
  refine ⟨rfl, ?_, ⟨?_, ?_⟩, ?_⟩
  · simp [logs, logsAvgLoss, hlen]
  · rw [htr]
    exact_mod_cast Int.floor_le _
  · rw [htr]
    exact Int.lt_floor_add_one _
  · intro s2 h2
    simp [logs, logsAvgLoss, h2]

/-- Witness for the amended C9: an agent with one recorded loss `7/2`
reports the truncated mean. -/
theorem logs_ok_witness :
    (logs ⟨1, 0, [7 / 2], [], [], []⟩).2 =
      AvgLoss.val (ratTrunc (mean (lastN 100 [7 / 2]))) :=
  (logs_ok ⟨1, 0, [7 / 2], [], [], []⟩ (by simp) (by norm_num [mean, lastN])).2.1

/-- Claim C5: with exploration enabled, every `act` call applies
`epsilon <- max(epsilon_end, epsilon_decay * epsilon)` exactly once, so
epsilon is non-increasing (for a decay factor at most 1 and a nonnegative
epsilon above its floor) with floor `epsilon_end`; epsilon is never changed
by `step` or by `learn`; with exploration disabled, epsilon is exactly 0
from construction and `act` never decays it. -/
theorem epsilon_ok (cfg : AgentConfig) (Q : List ℚ → Obs → List ℚ) (ps : Obs → Obs)
    (r : ℚ) (ra : ℕ) (s : AgentState) (st : Obs) (ip : List ℚ)
    (tr : Transition) (gradStep : List ℚ → ℚ → List ℚ) (lossOf : AgentState → ℚ)
    (loss : ℚ)
    (hd1 : cfg.epsilon_decay ≤ 1) (hfloor : cfg.epsilon_end ≤ s.epsilon)
    (hpos : 0 ≤ s.epsilon) :
    (cfg.epsilon_enabled = true →
      (act cfg Q ps r ra s st).2.epsilon =
        max cfg.epsilon_end (cfg.epsilon_decay * s.epsilon) ∧
      (act cfg Q ps r ra s st).2.epsilon ≤ s.epsilon ∧
      cfg.epsilon_end ≤ (act cfg Q ps r ra s st).2.epsilon) ∧
    (cfg.epsilon_enabled = false →
      (act cfg Q ps r ra s st).2.epsilon = s.epsilon ∧
      (initAgent cfg ip).epsilon = 0) ∧
    (cfg.epsilon_enabled = true → (initAgent cfg ip).epsilon = cfg.epsilon_start) ∧
    (step cfg ps gradStep lossOf s tr).1.epsilon = s.epsilon ∧
    (learn cfg gradStep loss s).epsilon = s.epsilon := by
  refine ⟨?_, ?_, ?_, ?_, rfl⟩
  · intro hen
    have heq : (act cfg Q ps r ra s st).2.epsilon =
        max cfg.epsilon_end (cfg.epsilon_decay * s.epsilon) := by
      simp [act, decay_eps, hen]
    refine ⟨heq, ?_, ?_⟩
    · rw [heq]
      exact max_le hfloor (mul_le_of_le_one_left hpos hd1)
    · rw [heq]
      exact le_max_left _ _
  · intro hen
    constructor
    · simp [act, hen]
    · simp [initAgent, hen]
  · intro hen
    simp [initAgent, hen]
  · simp only [step]
    split
    · simp [learn]
    · simp

/-- Witness for C5: a concrete enabled agent with `epsilon = 1`,
`epsilon_decay = 199/200`, `epsilon_end = 1/100`; one `act` call decays
epsilon to `199/200`. -/
theorem epsilon_ok_witness :
    (act ⟨8, 4, 64, 99 / 100, 1 / 1000, 1 / 100000, 4, false, true, 1, 1 / 100, 199 / 200⟩
      (fun _ _ => [0]) id 0 0 ⟨1, 0, [], [], [], []⟩ []).2.epsilon = 199 / 200 := by
  have h := (epsilon_ok
    ⟨8, 4, 64, 99 / 100, 1 / 1000, 1 / 100000, 4, false, true, 1, 1 / 100, 199 / 200⟩
    (fun _ _ => [0]) id 0 0 ⟨1, 0, [], [], [], []⟩ [] []
    ⟨[], 0, 0, [], false⟩ (fun p _ => p) (fun _ => 0) 0
    (by norm_num) (by norm_num) (by norm_num)).1 rfl
  rw [h.1]
  norm_num

/-- Claim C10: with exploration enabled, the epsilon-greedy branch in `act`
compares the random draw with the epsilon held at entry to the call — when
the draw is below the entry epsilon the random action is returned, otherwise
the arg-max of the local network's values — and the decay to
`max(epsilon_end, epsilon_decay * epsilon)` is applied on every enabled
call, regardless of which branch was taken (the returned action never
depends on the decayed value). -/
theorem act_order_ok (cfg : AgentConfig) (Q : List ℚ → Obs → List ℚ) (ps : Obs → Obs)
    (r : ℚ) (ra : ℕ) (s : AgentState) (st : Obs)
    (hen : cfg.epsilon_enabled = true) :
    ((act cfg Q ps r ra s st).1 =
      if r < s.epsilon then ra else argmax (Q s.qnet_local (ps st))) ∧
    (act cfg Q ps r ra s st).2.epsilon =
      max cfg.epsilon_end (cfg.epsilon_decay * s.epsilon) ∧
    (r < s.epsilon → (act cfg Q ps r ra s st).1 = ra) ∧
    (¬ r < s.epsilon →
      (act cfg Q ps r ra s st).1 = argmax (Q s.qnet_local (ps st))) := by
  refine ⟨by simp [act, hen], by simp [act, decay_eps, hen], ?_, ?_⟩
  · intro h
    simp [act, hen, h]
  · intro h
    simp [act, hen, h]

/-- Witness for C10: entry epsilon 1, decay factor 1/2, draw `r = 3/4`.
The call takes the random branch (since `3/4 < 1` at entry) even though
`3/4` is not below the decayed epsilon `1/2`, and epsilon ends at `1/2`. -/
theorem act_order_ok_witness :
    (act ⟨8, 4, 64, 99 / 100, 1 / 1000, 1 / 100000, 4, false, true, 1, 1 / 100, 1 / 2⟩
      (fun _ _ => [0]) id (3 / 4) 7 ⟨1, 0, [], [], [], []⟩ []).1 = 7 ∧
    (act ⟨8, 4, 64, 99 / 100, 1 / 1000, 1 / 100000, 4, false, true, 1, 1 / 100, 1 / 2⟩
      (fun _ _ => [0]) id (3 / 4) 7 ⟨1, 0, [], [], [], []⟩ []).2.epsilon = 1 / 2 := by
  have h := act_order_ok
    ⟨8, 4, 64, 99 / 100, 1 / 1000, 1 / 100000, 4, false, true, 1, 1 / 100, 1 / 2⟩
    (fun _ _ => [0]) id (3 / 4) 7 ⟨1, 0, [], [], [], []⟩ [] rfl
  refine ⟨h.2.2.1 (by norm_num), ?_⟩
  rw [h.2.1]
  norm_num

/-- Claim C2: every `step` call adds the transition to memory
unconditionally (length grows by one in both branches); `learn` is invoked
exactly when the incremented counter wraps to zero modulo `update_every`
AND the memory then holds strictly more than `batch_size` transitions, and
never while the memory holds at most `batch_size`; with `update_every = 4`,
`batch_size = 64` and 100 pre-seeded transitions, four consecutive `step`
calls invoke `learn` exactly once, on the fourth. -/
theorem step_cadence_ok (cfg : AgentConfig) (ps : Obs → Obs)
    (gradStep : List ℚ → ℚ → List ℚ) (lossOf : AgentState → ℚ)
    (s : AgentState) (tr : Transition) (s4 : AgentState) (trs : List Transition)
    (hm : s4.memory.length = 100) (ht : s4.t_step = 0) (htrs : trs.length = 4) :
    (step cfg ps gradStep lossOf s tr).1.memory.length = s.memory.length + 1 ∧
    ((step cfg ps gradStep lossOf s tr).2 = true ↔
      ((s.t_step + 1) % cfg.update_every = 0 ∧
        cfg.batch_size < s.memory.length + 1)) ∧
    (s.memory.length + 1 ≤ cfg.batch_size →
      (step cfg ps gradStep lossOf s tr).2 = false) ∧
    runSteps { cfg with update_every := 4, batch_size := 64 } ps gradStep lossOf
        s4 trs = [false, false, false, true] := by
  refine ⟨?_, ?_, ?_, ?_⟩
  · simp only [step]
    split
    · simp [learn]
    · simp
  · simp only [step]
    split
    · rename_i hc
      simpa using hc
    · rename_i hc
      simpa using hc
  · intro hle
    simp only [step]
    split
    · rename_i hc
      simp at hc
      omega
    · rfl
  · match trs, htrs with
    | [a, b, c, d], _ =>
      simp [runSteps, step, learn, ht, hm]

/-- Witness for C2: the scenario run on a concrete configuration with 100
pre-seeded transitions yields learn-invocation flags
`[false, false, false, true]`. -/
theorem step_cadence_ok_witness :
    runSteps { (⟨8, 4, 64, 99 / 100, 1 / 1000, 1 / 100000, 4, false, true, 1,
          1 / 100, 199 / 200⟩ : AgentConfig) with
        update_every := 4, batch_size := 64 }
      id (fun p _ => p) (fun _ => 0)
      ⟨1, 0, [], List.replicate 100 ⟨[], 0, 0, [], false⟩, [], []⟩
      (List.replicate 4 ⟨[], 0, 0, [], false⟩) = [false, false, false, true] :=
  (step_cadence_ok
    ⟨8, 4, 64, 99 / 100, 1 / 1000, 1 / 100000, 4, false, true, 1, 1 / 100, 199 / 200⟩
    id (fun p _ => p) (fun _ => 0)
    ⟨1, 0, [], [], [], []⟩ ⟨[], 0, 0, [], false⟩
    ⟨1, 0, [], List.replicate 100 ⟨[], 0, 0, [], false⟩, [], []⟩
    (List.replicate 4 ⟨[], 0, 0, [], false⟩)
    (by simp) rfl (by simp)).2.2.2

end DQN
